import Mathlib

/-!
Verification development for the evosim core (`src/lib.rs`).

The f32 scalars of the source are modelled as exact real numbers; the
thread-local RNG is modelled as a stream of unit draws together with a
cursor, consumed one draw per `random_range` call.  Rust `HashMap`s are
modelled as association lists whose iteration order is the list order
(the source's `HashMap` iteration order is arbitrary, so order-sensitive
statements are parametrised over the processing order).
-/

namespace Evosim

noncomputable section

/-- 2D vector with real components, modelling `macroquad::Vec2` (f32 pairs). -/
structure Vec2 where
  x : ℝ
  y : ℝ

def Vec2.zero : Vec2 := ⟨0, 0⟩

instance : Add Vec2 := ⟨fun a b => ⟨a.x + b.x, a.y + b.y⟩⟩

instance : Sub Vec2 := ⟨fun a b => ⟨a.x - b.x, a.y - b.y⟩⟩

/-- Scalar multiplication `v * r` (glam multiplies componentwise by the scalar). -/
def Vec2.smul (v : Vec2) (r : ℝ) : Vec2 := ⟨v.x * r, v.y * r⟩

/-- glam `length_squared`: `x * x + y * y`. -/
def Vec2.length_squared (v : Vec2) : ℝ := v.x * v.x + v.y * v.y

/-- glam `length`: square root of `length_squared`. -/
def Vec2.length (v : Vec2) : ℝ := Real.sqrt v.length_squared

/-- glam `normalize`: `self * length.recip()`. -/
def Vec2.normalize (v : Vec2) : Vec2 := v.smul (1 / v.length)

/-- glam `normalize_or_zero`: the normalized vector when the length is a
positive finite number, otherwise the zero vector. -/
def Vec2.normalize_or_zero (v : Vec2) : Vec2 :=
  if 0 < v.length then v.smul (1 / v.length) else Vec2.zero

/-- glam `clamp_length_max`: rescale to length `m` when `length_squared > m * m`. -/
def Vec2.clamp_length_max (v : Vec2) (m : ℝ) : Vec2 :=
  if m * m < v.length_squared then v.smul (m / Real.sqrt v.length_squared) else v

/-- glam `distance`: length of the difference. -/
def Vec2.distance (a b : Vec2) : ℝ := (a - b).length

/-- Rust `f32::clamp(lo, hi)`. -/
def clampR (v lo hi : ℝ) : ℝ := if v < lo then lo else if hi < v then hi else v

/-- Rust `f32::atan2` (`y.atan2(x)`), modelled by case split on the quadrant. -/
def atan2 (y x : ℝ) : ℝ :=
  if 0 < x then Real.arctan (y / x)
  else if x < 0 ∧ 0 ≤ y then Real.arctan (y / x) + Real.pi
  else if x < 0 ∧ y < 0 then Real.arctan (y / x) - Real.pi
  else if x = 0 ∧ 0 < y then Real.pi / 2
  else if x = 0 ∧ y < 0 then -(Real.pi / 2)
  else 0

/-- `f32::MAX`, the initial best distance in `find_food`. -/
def f32MAX : ℝ := 16777215 * 2 ^ 104

/-- `range_scale` from the source: scale a value `v` from
`\x7bold_lo, old_hi\x7d` to the new range (the source's own comment says it
remaps between the two ranges). -/
def range_scale (v old_lo old_hi new_lo new_hi : ℝ) : ℝ :=
  new_lo + v * (new_hi - new_lo) / (old_hi - old_lo)

/-- `FoodSource` struct. -/
structure FoodSource where
  position : Vec2
  max_amount : ℝ
  amount : ℝ

/-- `Target` enum: a reference to a food source or creature by id, or a fixed point. -/
inductive Target where
  | Food : ℕ → Target
  | Creature : ℕ → Target
  | Position : Vec2 → Target

/-- `Creature` struct.  `color` is the display-only tag (an index into the
source's color array), irrelevant to core logic. -/
structure Creature where
  position : Vec2
  velocity : Vec2
  facing : ℝ
  strength : ℝ
  dexterity : ℝ
  hunger : ℝ
  hunger_threshold : ℝ
  hunger_rate : ℝ
  color : ℕ
  movement_target : Option Target

/-- `Params` struct. -/
structure Params where
  window_width : ℝ
  window_height : ℝ
  padding : ℝ
  timestep : ℝ
  damping : ℝ

/-- `Bounds` struct. -/
structure Bounds where
  x_min : ℝ
  x_max : ℝ
  y_min : ℝ
  y_max : ℝ

/-- `World` struct.  The two `HashMap`s are modelled as association lists. -/
structure World where
  next_id : ℕ
  creatures : List (ℕ × Creature)
  food_sources : List (ℕ × FoodSource)
  params : Params
  bounds : Bounds

/-- `HashMap::insert`: replace the entry in place when the key is present,
otherwise add a new entry. -/
def mapInsert {α : Type} (k : ℕ) (v : α) : List (ℕ × α) → List (ℕ × α)
  | [] => [(k, v)]
  | (k', v') :: rest => if k' = k then (k, v) :: rest else (k', v') :: mapInsert k v rest

/-- `Target::position`: resolve the reference against the registries;
`None` when the id is absent. -/
def Target.position : Target → World → Option Vec2
  | Target.Creature id, world => (List.lookup id world.creatures).map (fun c => c.position)
  | Target.Food id, world => (List.lookup id world.food_sources).map (fun f => f.position)
  | Target.Position pos, _ => some pos

/-- `World::add_creature`: take the current `next_id`, increment it, insert;
returns the updated world and the assigned id. -/
def World.add_creature (w : World) (creature : Creature) : World × ℕ :=
  let id := w.next_id
  ({ w with next_id := w.next_id + 1, creatures := mapInsert id creature w.creatures }, id)

/-- `World::add_food_source`: same shared counter as `add_creature`. -/
def World.add_food_source (w : World) (food_source : FoodSource) : World × ℕ :=
  let id := w.next_id
  ({ w with next_id := w.next_id + 1, food_sources := mapInsert id food_source w.food_sources }, id)

/-- `World::new`: start from empty maps and id 0, add all creatures in list
order, then all food sources in list order. -/
def World.new (creatures : List Creature) (food_sources : List FoodSource)
    (params : Params) (bounds : Bounds) : World :=
  let w0 : World := ⟨0, [], [], params, bounds⟩
  let w1 := creatures.foldl (fun w c => (w.add_creature c).1) w0
  food_sources.foldl (fun w f => (w.add_food_source f).1) w1

/-- Model of `ThreadRng`: a stream of unit draws in `[0,1)` and a cursor. -/
structure Rng where
  seq : ℕ → ℝ
  idx : ℕ

/-- `rng.random_range(lo..hi)`: consume one unit draw, scaled into `[lo,hi)`. -/
def random_range (lo hi : ℝ) (r : Rng) : ℝ × Rng :=
  (lo + (hi - lo) * r.seq r.idx, ⟨r.seq, r.idx + 1⟩)

/-- `Creature::is_hungry`. -/
@[reducible] def Creature.is_hungry (c : Creature) : Prop :=
  c.hunger ≤ c.hunger_threshold

/-- `Creature::distance_to_food`. -/
def Creature.distance_to_food (c : Creature) (food : FoodSource) : ℝ :=
  c.position.distance food.position

/-- `Creature::square_speed`. -/
def Creature.square_speed (c : Creature) : ℝ := c.velocity.length_squared

/-- `Creature::max_speed`. -/
def Creature.max_speed (c : Creature) : ℝ := c.dexterity * 10

/-- `Creature::acceleration`. -/
def Creature.acceleration (c : Creature) : ℝ := c.dexterity

/-- `Creature::update_facing`: keep the old facing for zero velocity,
otherwise face along the velocity. -/
def Creature.update_facing (c : Creature) : Creature :=
  let v := c.velocity.normalize_or_zero
  { c with facing := if v.x = 0 ∧ v.y = 0 then c.facing else atan2 v.y v.x }

/-- `Creature::move_to_target`: resolve the target, snap on arrival
(squared distance below 25), otherwise steer with the smoothstep arrival
profile, clamping steering to `acceleration` and speed to `max_speed`,
then integrate position. -/
def Creature.move_to_target (c : Creature) (world : World) : Creature :=
  match c.movement_target with
  | none => c
  | some target =>
    match target.position world with
    | none => c
    | some target_pos =>
      let to_target := target_pos - c.position
      let squared_distance := to_target.length_squared
      if squared_distance < 25 then
        { c with velocity := Vec2.zero, movement_target := none }
      else
        let acceleration_radius : ℝ := 525
        let t := clampR (squared_distance / acceleration_radius) 0 1
        let speed_factor := t * (3 - 2 * t)
        let desired_speed := c.max_speed * speed_factor
        let desired_velocity := to_target.normalize.smul desired_speed
        let steering := desired_velocity - c.velocity
        let steering_clamped := steering.clamp_length_max c.acceleration
        let v1 := c.velocity + steering_clamped
        let v2 := v1.clamp_length_max c.max_speed
        { c with velocity := v2, position := c.position + v2.smul world.params.timestep }

/-- `update_hunger`: subtract `0.01 + hunger_rate * square_speed`, clamp to `[0,100]`. -/
def update_hunger (c : Creature) : Creature :=
  let h := c.hunger - (0.01 + c.hunger_rate * c.square_speed)
  { c with hunger := clampR h 0 100 }

/-- The loop of `find_food`: fold over the registry keeping the nearest
entry seen so far and its distance. -/
def find_food_aux (c : Creature) :
    List (ℕ × FoodSource) → Option (ℕ × FoodSource) → ℝ → Option (ℕ × FoodSource)
  | [], nearest_food, _ => nearest_food
  | (id, food) :: rest, nearest_food, distance =>
    let food_dist := c.distance_to_food food
    if food_dist < distance then find_food_aux c rest (some (id, food)) food_dist
    else find_food_aux c rest nearest_food distance

/-- `find_food`: target the nearest food source, if any (initial best
distance is `f32::MAX`). -/
def find_food (c : Creature) (world : World) : Creature :=
  match find_food_aux c world.food_sources none f32MAX with
  | some (food_id, _) => { c with movement_target := some (Target.Food food_id) }
  | none => c

/-- `find_random_walk_target`: keep an existing target; otherwise draw a
distance in `[10,80)` and an angle offset in `[-pi/6, pi/6)` from the
facing and target that point. -/
def find_random_walk_target (rng : Rng) (c : Creature) (_world : World) : Creature × Rng :=
  if c.movement_target.isSome then (c, rng)
  else
    let dr := random_range 10 80 rng
    let ar := random_range (-Real.pi / 6) (Real.pi / 6) dr.2
    let angle := ar.1 + c.facing
    let dx := dr.1 * Real.cos angle
    let dy := dr.1 * Real.sin angle
    let target_pos := c.position + (⟨dx, dy⟩ : Vec2)
    ({ c with movement_target := some (Target.Position target_pos) }, ar.2)

/-- The boundary force computed inside `apply_bc`: per axis, within
`padding` of a bound the force is `padding - max(distance_to_bound, 1)`,
pointed inward. -/
def bc_force (c : Creature) (world : World) : Vec2 :=
  let params := world.params
  let bounds := world.bounds
  let fx :=
    if c.position.x < bounds.x_min + params.padding then
      params.padding - max (c.position.x - bounds.x_min) 1
    else if bounds.x_max - params.padding < c.position.x then
      -(params.padding - max (bounds.x_max - c.position.x) 1)
    else 0
  let fy :=
    if c.position.y < bounds.y_min + params.padding then
      params.padding - max (c.position.y - bounds.y_min) 1
    else if bounds.y_max - params.padding < c.position.y then
      -(params.padding - max (bounds.y_max - c.position.y) 1)
    else 0
  ⟨fx, fy⟩

/-- `apply_bc`: add the boundary force (scaled by timestep and damping) to
the velocity, then integrate position a second time this tick. -/
def apply_bc (c : Creature) (world : World) : Creature :=
  let force := bc_force c world
  let v := c.velocity + (force.smul world.params.timestep).smul world.params.damping
  { c with velocity := v, position := c.position + v.smul world.params.timestep }

/-- The body of the per-creature loop in `update_creatures`: hunger decay,
behavior selection, steering, boundary conditions, facing. -/
def behavior_stage (rng : Rng) (c : Creature) (world : World) : Creature × Rng :=
  if c.is_hungry then (find_food c world, rng) else find_random_walk_target rng c world

/-- One creature's whole per-tick update (the loop body of `update_creatures`). -/
def creature_tick (rng : Rng) (c0 : Creature) (world : World) : Creature × Rng :=
  let c1 := update_hunger c0
  let br := behavior_stage rng c1 world
  let c3 := br.1.move_to_target world
  let c4 := apply_bc c3 world
  (c4.update_facing, br.2)

/-- `update_creatures` processing a given id order: look each creature up
in the live map, run its tick against the live world, and re-insert it
before moving to the next id. -/
def update_creatures_aux (rng : Rng) (world : World) : List ℕ → World × Rng
  | [] => (world, rng)
  | id :: rest =>
    match List.lookup id world.creatures with
    | none => update_creatures_aux rng world rest
    | some c =>
      let cr := creature_tick rng c world
      update_creatures_aux cr.2 { world with creatures := mapInsert id cr.1 world.creatures } rest

/-- `update_creatures`: collect the creature ids, then process them. -/
def update_creatures (rng : Rng) (world : World) : World × Rng :=
  update_creatures_aux rng world (world.creatures.map Prod.fst)

/-- `update_food_sources`: the loop body is empty in the source (regrowth
is a declared stub), so this is the identity on the world. -/
def update_food_sources (_rng : Rng) (world : World) : World := world

/-- `update_world`: food sources first, then all creatures. -/
def update_world (rng : Rng) (world : World) : World × Rng :=
  update_creatures rng (update_food_sources rng world)

/-! ### Concrete fixtures used by witnesses and counterexamples -/

/-- The source's `Params::default()`. -/
def params0 : Params := ⟨600, 400, 20, 0.01, 0.9⟩

/-- The arena built by the source's `reset`: the window rectangle. -/
def bounds0 : Bounds := ⟨0, 600, 0, 400⟩

/-- A fixed RNG stream (all draws zero); the claims settled on concrete
inputs never consume a draw, so the stream's values are irrelevant. -/
def rng0 : Rng := ⟨fun _ => 0, 0⟩

/-- A baseline creature at the arena center, at rest, not hungry. -/
def creature0 : Creature :=
  ⟨⟨300, 200⟩, ⟨0, 0⟩, 0, 1, 1, 100, 25, 0.01, 0, none⟩

/-- An empty world. -/
def world0 : World := ⟨0, [], [], params0, bounds0⟩

/-! ### Basic vector lemmas -/

lemma lookup_cons_self {β : Type} (k : ℕ) (v : β) (l : List (ℕ × β)) :
    List.lookup k ((k, v) :: l) = some v := by
  simp [List.lookup]

lemma lookup_cons_ne {β : Type} (k k' : ℕ) (v : β) (l : List (ℕ × β)) (h : k ≠ k') :
    List.lookup k ((k', v) :: l) = List.lookup k l := by
  rw [List.lookup]
  rw [show (k == k') = false from beq_eq_false_iff_ne.mpr h]

lemma Vec2.add_def (a b : Vec2) : a + b = ⟨a.x + b.x, a.y + b.y⟩ := rfl

lemma Vec2.sub_def (a b : Vec2) : a - b = ⟨a.x - b.x, a.y - b.y⟩ := rfl

lemma Vec2.length_squared_nonneg (v : Vec2) : 0 ≤ v.length_squared :=
  add_nonneg (mul_self_nonneg _) (mul_self_nonneg _)

lemma Vec2.length_squared_smul (v : Vec2) (r : ℝ) :
    (v.smul r).length_squared = v.length_squared * (r * r) := by
  simp only [Vec2.smul, Vec2.length_squared]
  ring

/-- The squared length after `clamp_length_max` never exceeds `m * m`. -/
lemma Vec2.length_squared_clamp_length_max (v : Vec2) (m : ℝ) :
    (v.clamp_length_max m).length_squared ≤ m * m := by
  unfold Vec2.clamp_length_max
  split_ifs with h
  · have hpos : 0 < v.length_squared := lt_of_le_of_lt (mul_self_nonneg m) h
    rw [Vec2.length_squared_smul]
    rw [div_mul_div_comm, Real.mul_self_sqrt hpos.le]
    rw [mul_div_assoc']
    rw [mul_comm, mul_div_assoc, div_self hpos.ne']
    simp
  · exact le_of_not_lt h

/-! ### C1: speed bound -/

/-- C1 counterexample fixture: a content creature already at max speed
(`|v| = 10 = dexterity * 10`), sitting on the minimum x bound, with a
dangling food target so that the steering step is a no-op. -/
def cC1 : Creature := ⟨⟨0, 200⟩, ⟨10, 0⟩, 0, 1, 1, 100, 25, 0.01, 0, some (Target.Food 99)⟩

/-- C1 counterexample world: just that one creature, default params. -/
def wC1 : World := ⟨1, [(0, cC1)], [], params0, bounds0⟩

/-- C1 amended, positive part: the steering step itself preserves the
squared speed bound `|v|² ≤ (dexterity*10)²` (the final
`clamp_length_max(max_speed)` enforces it on the move path, the snap path
zeroes the velocity, the no-target paths keep the velocity). -/
theorem C1_speed_bound_steering (c : Creature) (w : World)
    (h : c.velocity.length_squared ≤ (c.dexterity * 10) * (c.dexterity * 10)) :
    (c.move_to_target w).velocity.length_squared
      ≤ (c.dexterity * 10) * (c.dexterity * 10) := by
  unfold Creature.move_to_target
  split
  · exact h
  · split
    · exact h
    · dsimp only
      split_ifs with hd
      · have h0 : (Vec2.zero).length_squared = 0 := by
          simp [Vec2.zero, Vec2.length_squared]
        dsimp only
        rw [h0]
        exact mul_self_nonneg _
      · simpa [Creature.max_speed] using
          Vec2.length_squared_clamp_length_max _ c.max_speed

/-- Witness for the amended C1 theorem at a concrete resting creature. -/
theorem C1_speed_bound_steering_witness :
    (creature0.move_to_target world0).velocity.length_squared
      ≤ (creature0.dexterity * 10) * (creature0.dexterity * 10) :=
  C1_speed_bound_steering creature0 world0
    (by norm_num [creature0, Vec2.length_squared])

/-- C1 counterexample: the speed bound is NOT an invariant of the whole
per-tick update.  After one `update_world` tick, the creature `cC1`
(dexterity 1, so bound `|v| ≤ 10`, i.e. `|v|² ≤ 100`) ends with squared
speed `103.449241`: `apply_bc` added the boundary impulse to an
already-max-speed velocity without re-clamping. -/
theorem C1_counterexample :
    (List.lookup 0 (update_world rng0 wC1).1.creatures).map
        (fun c => c.velocity.length_squared) = some 103.449241
    ∧ (List.lookup 0 (update_world rng0 wC1).1.creatures).map
        (fun c => (c.dexterity * 10) * (c.dexterity * 10)) = some 100
    ∧ ¬ ((103.449241 : ℝ) ≤ 100) := by
  refine ⟨?_, ?_, by norm_num⟩
  all_goals
    norm_num [update_world, update_creatures, update_creatures_aux, update_food_sources,
      wC1, cC1, creature_tick, update_hunger, behavior_stage, Creature.is_hungry,
      find_random_walk_target, Creature.move_to_target, Target.position, apply_bc, bc_force,
      Creature.update_facing, Creature.square_speed, Vec2.length_squared, Vec2.smul,
      Vec2.add_def, Vec2.sub_def, Vec2.zero, mapInsert, List.lookup, clampR, params0, bounds0,
      Creature.max_speed, Creature.acceleration, rng0, max_def]

/-! ### C3: snapshot discipline / iteration-order independence -/

/-- C3 counterexample, creature A (id 0): content, dangling food target,
parked just inside the left padding zone so the boundary force nudges it
right by a tiny amount during its tick. -/
def cA : Creature := ⟨⟨19, 200⟩, ⟨0, 0⟩, 0, 1, 1, 100, 25, 0.01, 0, some (Target.Food 99)⟩

/-- C3 counterexample, creature B (id 1): content, at rest, targeting
creature A, at exactly distance 5 (squared distance 25) from A's pre-tick
position — one hair outside the arrival-snap radius. -/
def cB : Creature := ⟨⟨24, 200⟩, ⟨0, 0⟩, 0, 1, 1, 100, 25, 0.01, 0, some (Target.Creature 0)⟩

/-- C3 counterexample world. -/
def wC3 : World := ⟨2, [(0, cA), (1, cB)], [], params0, bounds0⟩

/-- C3 counterexample: one tick's outcome depends on the creature
iteration order.  Processing A first moves A within B's snap radius, so B
snaps (velocity zeroed, target cleared); processing B first lets B observe
A's pre-tick position at squared distance exactly 25, so B keeps its
target.  Both orders are permutations of the key set, and the resulting
worlds differ — `update_creatures` reads the live, partially-updated map,
not a pre-tick snapshot. -/
theorem C3_counterexample :
    [0, 1].Perm (wC3.creatures.map Prod.fst)
    ∧ [1, 0].Perm (wC3.creatures.map Prod.fst)
    ∧ (update_creatures_aux rng0 wC3 [0, 1]).1 ≠ (update_creatures_aux rng0 wC3 [1, 0]).1 := by
  refine ⟨by simp [wC3], ?_, ?_⟩
  · have : (wC3.creatures.map Prod.fst) = [0, 1] := by simp [wC3]
    rw [this]
    exact List.Perm.swap 0 1 []
  · intro heq
    have hproj := congrArg
      (fun w => (List.lookup 1 w.creatures).map (fun c => c.movement_target)) heq
    have hL : (List.lookup 1 (update_creatures_aux rng0 wC3 [0, 1]).1.creatures).map
        (fun c => c.movement_target) = some none := by
      norm_num [update_creatures_aux, wC3, cA, cB, creature_tick, update_hunger,
        behavior_stage, Creature.is_hungry, find_random_walk_target,
        Creature.move_to_target, Target.position, apply_bc, bc_force,
        Creature.update_facing, Creature.square_speed, Vec2.length_squared, Vec2.smul,
        Vec2.add_def, Vec2.sub_def, Vec2.zero, mapInsert, lookup_cons_self, lookup_cons_ne,
        clampR, params0, bounds0, Creature.max_speed, Creature.acceleration, rng0, max_def]
    have hR : (List.lookup 1 (update_creatures_aux rng0 wC3 [1, 0]).1.creatures).map
        (fun c => c.movement_target) = some (some (Target.Creature 0)) := by
      norm_num [update_creatures_aux, wC3, cA, cB, creature_tick, update_hunger,
        behavior_stage, Creature.is_hungry, find_random_walk_target,
        Creature.move_to_target, Target.position, apply_bc, bc_force,
        Creature.update_facing, Creature.square_speed, Vec2.length_squared, Vec2.smul,
        Vec2.add_def, Vec2.sub_def, Vec2.zero, mapInsert, lookup_cons_self, lookup_cons_ne,
        clampR, params0, bounds0, Creature.max_speed, Creature.acceleration, rng0, max_def]
    dsimp only at hproj
    rw [hL, hR] at hproj
    exact absurd hproj (by simp)

/-- A movement target that neither reads the creature registry nor lets
the wander branch consume randomness: present, and not a `Creature`
reference. -/
def target_ok : Option Target → Prop
  | some (Target.Food _) => True
  | some (Target.Position _) => True
  | _ => False

lemma target_ok_isSome {t : Option Target} (h : target_ok t) : t.isSome = true := by
  cases t with
  | none => exact absurd h (by simp [target_ok])
  | some tgt => rfl

/-- Under `target_ok`, the steering step does not depend on the creatures
map of the world. -/
lemma move_to_target_creatures_agnostic (c : Creature) (w : World)
    (l : List (ℕ × Creature)) (h : target_ok c.movement_target) :
    c.move_to_target { w with creatures := l } = c.move_to_target w := by
  cases hmt : c.movement_target with
  | none => rw [hmt] at h; exact absurd h (by simp [target_ok])
  | some tgt =>
    cases tgt with
    | Food fid =>
      simp only [Creature.move_to_target, hmt, Target.position]
    | Creature cid => rw [hmt] at h; exact absurd h (by simp [target_ok])
    | Position p =>
      simp only [Creature.move_to_target, hmt, Target.position]

/-- Under `target_ok`, behavior selection yields a creature whose target
is again `target_ok` (food seeking sets a `Food` reference; the wander
branch keeps the existing target). -/
lemma target_ok_behavior (rng : Rng) (c : Creature) (w : World)
    (h : target_ok c.movement_target) :
    target_ok (behavior_stage rng c w).1.movement_target := by
  unfold behavior_stage
  split_ifs with hh
  · unfold find_food
    split
    · trivial
    · exact h
  · unfold find_random_walk_target
    rw [if_pos (target_ok_isSome h)]
    exact h

/-- Under `target_ok`, behavior selection consumes no randomness. -/
lemma behavior_stage_rng (rng : Rng) (c : Creature) (w : World)
    (h : target_ok c.movement_target) :
    (behavior_stage rng c w).2 = rng := by
  unfold behavior_stage
  split_ifs with hh
  · rfl
  · unfold find_random_walk_target
    rw [if_pos (target_ok_isSome h)]

/-- Under `target_ok`, a creature's whole tick depends on the world only
through its food registry, params and bounds — not its creatures map —
and returns the RNG unchanged. -/
lemma creature_tick_creatures_agnostic (rng : Rng) (c : Creature) (w : World)
    (l : List (ℕ × Creature)) (h : target_ok c.movement_target) :
    creature_tick rng c { w with creatures := l } = ((creature_tick rng c w).1, rng) := by
  have hok1 : target_ok (update_hunger c).movement_target := h
  have hb : behavior_stage rng (update_hunger c) { w with creatures := l }
      = behavior_stage rng (update_hunger c) w := rfl
  have hok2 : target_ok (behavior_stage rng (update_hunger c) w).1.movement_target :=
    target_ok_behavior rng (update_hunger c) w hok1
  have hm : (behavior_stage rng (update_hunger c) w).1.move_to_target { w with creatures := l }
      = (behavior_stage rng (update_hunger c) w).1.move_to_target w :=
    move_to_target_creatures_agnostic _ w l hok2
  have ha : ∀ c' : Creature, apply_bc c' { w with creatures := l } = apply_bc c' w :=
    fun _ => rfl
  unfold creature_tick
  dsimp only
  rw [hb, hm, ha]
  rw [behavior_stage_rng rng (update_hunger c) w hok1]

lemma lookup_mem {β : Type} :
    ∀ (l : List (ℕ × β)) (id : ℕ) (v : β), List.lookup id l = some v → (id, v) ∈ l := by
  intro l
  induction l with
  | nil => intro id v h; simp [List.lookup] at h
  | cons p t ih =>
    intro id v h
    rw [List.lookup] at h
    by_cases hk : id = p.1
    · rw [show (id == p.1) = true from beq_iff_eq.mpr hk] at h
      simp only [Option.some.injEq] at h
      subst hk
      rw [← h]
      exact List.mem_cons_self _ _
    · rw [show (id == p.1) = false from beq_eq_false_iff_ne.mpr hk] at h
      exact List.mem_cons_of_mem _ (ih id v h)

lemma lookup_none_keys {β : Type} :
    ∀ (l : List (ℕ × β)) (id : ℕ), List.lookup id l = none → ∀ p ∈ l, p.1 ≠ id := by
  intro l
  induction l with
  | nil => intro id _ p hp; simp at hp
  | cons q t ih =>
    intro id h p hp
    rw [List.lookup] at h
    by_cases hk : id = q.1
    · rw [show (id == q.1) = true from beq_iff_eq.mpr hk] at h
      simp at h
    · rw [show (id == q.1) = false from beq_eq_false_iff_ne.mpr hk] at h
      rcases List.mem_cons.mp hp with hq | hq
      · subst hq; exact fun he => hk he.symm
      · exact ih id h p hq

lemma key_unique {β : Type} :
    ∀ (l : List (ℕ × β)), (l.map Prod.fst).Nodup →
      ∀ p q, p ∈ l → q ∈ l → p.1 = q.1 → p = q := by
  intro l
  induction l with
  | nil => intro _ p q hp; simp at hp
  | cons r t ih =>
    intro hnd p q hp hq hpq
    rw [List.map_cons, List.nodup_cons] at hnd
    rcases List.mem_cons.mp hp with h1 | h1 <;> rcases List.mem_cons.mp hq with h2 | h2
    · rw [h1, h2]
    · exfalso
      apply hnd.1
      have he : r.1 = q.1 := by rw [← h1]; exact hpq
      exact he ▸ List.mem_map_of_mem Prod.fst h2
    · exfalso
      apply hnd.1
      have he : r.1 = p.1 := by rw [← h2]; exact hpq.symm
      exact he ▸ List.mem_map_of_mem Prod.fst h1
    · exact ih hnd.2 p q h1 h2 hpq

lemma map_nokey {β : Type} :
    ∀ (l : List (ℕ × β)) (k : ℕ) (v : β), (∀ p ∈ l, p.1 ≠ k) →
      l.map (fun p => if p.1 = k then (k, v) else p) = l := by
  intro l k v h
  calc l.map (fun p => if p.1 = k then (k, v) else p)
      = l.map id := List.map_congr_left (fun p hp => by simp [h p hp])
    _ = l := List.map_id l

/-- In-place `mapInsert` on a present key equals the pointwise key-match
replacement map. -/
lemma mapInsert_eq_map {β : Type} :
    ∀ (l : List (ℕ × β)) (id : ℕ) (v : β), (l.map Prod.fst).Nodup →
      id ∈ l.map Prod.fst →
      mapInsert id v l = l.map (fun p => if p.1 = id then (id, v) else p) := by
  intro l
  induction l with
  | nil => intro id v _ hm; simp at hm
  | cons q t ih =>
    intro id v hnd hm
    rw [List.map_cons, List.nodup_cons] at hnd
    rcases q with ⟨k, x⟩
    rw [List.map_cons]
    by_cases hk : k = id
    · subst hk
      unfold mapInsert
      rw [if_pos rfl]
      have hnk : ∀ p ∈ t, p.1 ≠ k := by
        intro p hp hpk
        have hmm : p.1 ∈ List.map Prod.fst t := List.mem_map_of_mem Prod.fst hp
        rw [hpk] at hmm
        exact hnd.1 hmm
      rw [map_nokey t k v hnk]
      simp
    · unfold mapInsert
      rw [if_neg hk]
      simp only [if_neg hk]
      rw [ih id v hnd.2]
      rcases List.mem_cons.mp hm with h1 | h1
      · exact absurd h1.symm hk
      · exact h1

/-- Batch characterization of `update_creatures_aux`: when every creature
still to be processed carries a `target_ok` target, processing a
duplicate-free id order replaces each listed creature by its tick against
the base world and leaves the RNG untouched. -/
lemma update_creatures_aux_spec (rng : Rng) (w : World) :
    ∀ (o : List ℕ) (l : List (ℕ × Creature)),
      o.Nodup →
      (l.map Prod.fst).Nodup →
      (∀ p ∈ l, p.1 ∈ o → p ∈ w.creatures ∧ target_ok p.2.movement_target) →
      update_creatures_aux rng { w with creatures := l } o
        = ({ w with
              creatures := l.map (fun p =>
                if p.1 ∈ o then (p.1, (creature_tick rng p.2 w).1) else p) }, rng) := by
  intro o
  induction o with
  | nil =>
    intro l _ _ _
    have hmap : l.map (fun p => if p.1 ∈ ([] : List ℕ) then
        (p.1, (creature_tick rng p.2 w).1) else p) = l := by
      calc l.map (fun p => if p.1 ∈ ([] : List ℕ) then
              (p.1, (creature_tick rng p.2 w).1) else p)
          = l.map id := List.map_congr_left (fun p _ => by simp)
        _ = l := List.map_id l
    rw [update_creatures_aux, hmap]
  | cons id rest ih =>
    intro l hno hnl hl
    rw [List.nodup_cons] at hno
    rw [update_creatures_aux]
    cases hlk : List.lookup id ({ w with creatures := l } : World).creatures with
    | none =>
      have hnk : ∀ p ∈ l, p.1 ≠ id := lookup_none_keys l id hlk
      rw [ih l hno.2 hnl (fun p hp hpo => hl p hp (List.mem_cons_of_mem _ hpo))]
      have heq : l.map (fun p => if p.1 ∈ rest then (p.1, (creature_tick rng p.2 w).1) else p)
          = l.map (fun p => if p.1 ∈ id :: rest then (p.1, (creature_tick rng p.2 w).1) else p) := by
        apply List.map_congr_left
        intro p hp
        by_cases hmem : p.1 ∈ rest
        · rw [if_pos hmem, if_pos (List.mem_cons_of_mem _ hmem)]
        · rw [if_neg hmem, if_neg (by simp [List.mem_cons, hnk p hp, hmem])]
      rw [← heq]
    | some c =>
      have hmem : (id, c) ∈ l := lookup_mem l id c hlk
      have hc := hl (id, c) hmem (List.mem_cons_self _ _)
      have htick := creature_tick_creatures_agnostic rng c w l hc.2
      dsimp only
      rw [htick]
      dsimp only
      have hkey : id ∈ l.map Prod.fst := List.mem_map_of_mem Prod.fst hmem
      have hins : mapInsert id (creature_tick rng c w).1 l
          = l.map (fun p => if p.1 = id then (id, (creature_tick rng c w).1) else p) :=
        mapInsert_eq_map l id _ hnl hkey
      set g1 : ℕ × Creature → ℕ × Creature :=
        fun p => if p.1 = id then (id, (creature_tick rng c w).1) else p with hg1
      have hkeys' : ((l.map g1).map Prod.fst) = l.map Prod.fst := by
        rw [List.map_map]
        apply List.map_congr_left
        intro p _
        by_cases hpk : p.1 = id
        · simp [hg1, hpk]
        · simp [hg1, hpk]
      have hstep : update_creatures_aux rng { w with creatures := l.map g1 } rest
          = ({ w with
                creatures := (l.map g1).map (fun p => if p.1 ∈ rest then
                  (p.1, (creature_tick rng p.2 w).1) else p) }, rng) := by
        apply ih (l.map g1) hno.2 (by rw [hkeys']; exact hnl)
        intro p' hp' hpo
        rcases List.mem_map.mp hp' with ⟨p, hp, hpe⟩
        by_cases hpk : p.1 = id
        · exfalso
          have : p'.1 = id := by rw [← hpe]; simp [hg1, hpk]
          exact hno.1 (this ▸ hpo)
        · have : p' = p := by rw [← hpe]; simp [hg1, hpk]
          rw [this]
          exact hl p hp (List.mem_cons_of_mem _ (this ▸ hpo))
      rw [hins, hstep]
      have hfinal : (l.map g1).map (fun p => if p.1 ∈ rest then
            (p.1, (creature_tick rng p.2 w).1) else p)
          = l.map (fun p => if p.1 ∈ id :: rest then
            (p.1, (creature_tick rng p.2 w).1) else p) := by
        rw [List.map_map]
        apply List.map_congr_left
        intro p hp
        by_cases hpk : p.1 = id
        · have hpc : p = (id, c) := key_unique l hnl p (id, c) hp hmem (by rw [hpk])
          have h1 : g1 p = (id, (creature_tick rng c w).1) := by simp [hg1, hpk]
          simp only [Function.comp_apply, h1]
          rw [if_neg (by simpa using hno.1), if_pos (by simp [hpk])]
          rw [hpc]
        · have h1 : g1 p = p := by simp [hg1, hpk]
          simp only [Function.comp_apply, h1]
          by_cases hmem2 : p.1 ∈ rest
          · rw [if_pos hmem2, if_pos (List.mem_cons_of_mem _ hmem2)]
          · rw [if_neg hmem2, if_neg (by simp [List.mem_cons, hpk, hmem2])]
      rw [hfinal]

/-- C3 amended: a tick's outcome is independent of the creature iteration
order provided no creature holds a `Creature(id)` reference and every
creature already has a target (so behavior reads only the static food
registry and consumes no randomness).  In general the claim fails (see the
counterexample): `update_creatures` re-inserts each updated creature
before processing the next, so a later creature observes an earlier
creature's same-tick state through a `Creature` target. -/
theorem C3_order_independence (rng : Rng) (w : World) (o1 o2 : List ℕ)
    (hkeys : (w.creatures.map Prod.fst).Nodup)
    (hok : ∀ p ∈ w.creatures, target_ok p.2.movement_target)
    (h1 : o1.Perm (w.creatures.map Prod.fst))
    (h2 : o2.Perm (w.creatures.map Prod.fst)) :
    update_creatures_aux rng w o1 = update_creatures_aux rng w o2 := by
  have e1 : update_creatures_aux rng w o1
      = ({ w with creatures := w.creatures.map (fun p => if p.1 ∈ o1 then
            (p.1, (creature_tick rng p.2 w).1) else p) }, rng) :=
    update_creatures_aux_spec rng w o1 w.creatures (h1.nodup_iff.mpr hkeys) hkeys
      (fun p hp _ => ⟨hp, hok p hp⟩)
  have e2 : update_creatures_aux rng w o2
      = ({ w with creatures := w.creatures.map (fun p => if p.1 ∈ o2 then
            (p.1, (creature_tick rng p.2 w).1) else p) }, rng) :=
    update_creatures_aux_spec rng w o2 w.creatures (h2.nodup_iff.mpr hkeys) hkeys
      (fun p hp _ => ⟨hp, hok p hp⟩)
  rw [e1, e2]
  have : w.creatures.map (fun p => if p.1 ∈ o1 then
        (p.1, (creature_tick rng p.2 w).1) else p)
      = w.creatures.map (fun p => if p.1 ∈ o2 then
        (p.1, (creature_tick rng p.2 w).1) else p) := by
    apply List.map_congr_left
    intro p hp
    have hk : p.1 ∈ w.creatures.map Prod.fst := List.mem_map_of_mem Prod.fst hp
    rw [if_pos (h1.mem_iff.mpr hk), if_pos (h2.mem_iff.mpr hk)]
  rw [this]

/-- C3 order-independence fixture: two creatures with fixed-point and food
targets (no `Creature` references). -/
def wOI : World :=
  ⟨2, [(0, { creature0 with movement_target := some (Target.Position ⟨1, 2⟩) }),
       (1, { creature0 with movement_target := some (Target.Food 0) })], [], params0, bounds0⟩

/-- Witness for the amended C3 theorem: the two opposite processing orders
agree on the fixture world. -/
theorem C3_order_independence_witness :
    update_creatures_aux rng0 wOI [0, 1] = update_creatures_aux rng0 wOI [1, 0] := by
  apply C3_order_independence rng0 wOI [0, 1] [1, 0]
  · simp [wOI]
  · intro p hp
    simp only [wOI, List.mem_cons, List.not_mem_nil, or_false] at hp
    rcases hp with rfl | rfl <;> trivial
  · simp [wOI]
  · have : (wOI.creatures.map Prod.fst) = [0, 1] := by simp [wOI]
    rw [this]
    exact List.Perm.swap 0 1 []

/-! ### C2: `range_scale` -/

/-- C2: the claim says `range_scale` remaps `\x7bold_lo, old_hi\x7d` onto the
new range, so the lower endpoint must map to `new_lo`.  The code omits the
`- old_lo` shift: at `v = old_lo = 1`, `old_hi = 2`, new range `(0, 10)`,
it returns `10`, not `0` — contradicting both the spec and the function's
own comment. -/
theorem C2_range_scale_lower_endpoint :
    range_scale 1 1 2 0 10 = 10 ∧ (10 : ℝ) ≠ 0 := by
  constructor
  · norm_num [range_scale]
  · norm_num

/-! ### C4: arrival snap -/

/-- C4: when the resolved target is within squared distance 25 of the
creature, `move_to_target` zeroes the velocity, clears the target, and
leaves the position unchanged. -/
theorem C4_arrival_snap (c : Creature) (w : World) (tgt : Target) (p : Vec2)
    (htgt : c.movement_target = some tgt)
    (hres : tgt.position w = some p)
    (hclose : (p - c.position).length_squared < 25) :
    c.move_to_target w = { c with velocity := Vec2.zero, movement_target := none } := by
  unfold Creature.move_to_target
  rw [htgt]
  simp only [hres]
  rw [if_pos hclose]

/-- Witness for C4: a creature one unit away from a fixed-point target
snaps: velocity becomes zero, the target is cleared, and the position is
unchanged. -/
theorem C4_arrival_snap_witness :
    ({ creature0 with movement_target := some (Target.Position ⟨301, 200⟩) } :
        Creature).move_to_target world0
      = { creature0 with velocity := Vec2.zero, movement_target := none } := by
  rw [C4_arrival_snap _ world0 (Target.Position ⟨301, 200⟩) ⟨301, 200⟩ rfl rfl
    (by norm_num [creature0, Vec2.sub_def, Vec2.length_squared])]

/-! ### C5: dangling target resolution -/

/-- C5: a `Food`/`Creature` reference whose id is absent from the registry
resolves to `none`; a `Position` always resolves to its point; and an
unresolvable target makes `move_to_target` leave the creature entirely
unchanged (velocity and position included). -/
theorem C5_dangling_target (w : World) (id : ℕ) (c : Creature) (tgt : Target) (p : Vec2) :
    (List.lookup id w.food_sources = none → (Target.Food id).position w = none)
    ∧ (List.lookup id w.creatures = none → (Target.Creature id).position w = none)
    ∧ (Target.Position p).position w = some p
    ∧ (c.movement_target = some tgt → tgt.position w = none → c.move_to_target w = c) := by
  refine ⟨fun h => ?_, fun h => ?_, rfl, fun htgt hres => ?_⟩
  · simp [Target.position, h]
  · simp [Target.position, h]
  · unfold Creature.move_to_target
    rw [htgt]
    simp only [hres]

/-- Witness for C5: in the empty world, `Food 7` resolves to `none`,
`Creature 7` resolves to `none`, a fixed point resolves to itself, and a
creature whose target is the dangling `Food 7` is unchanged by the
steering step. -/
theorem C5_dangling_target_witness :
    (Target.Food 7).position world0 = none
    ∧ (Target.Creature 7).position world0 = none
    ∧ (Target.Position ⟨1, 2⟩).position world0 = some ⟨1, 2⟩
    ∧ ({ creature0 with movement_target := some (Target.Food 7) } : Creature).move_to_target world0
        = { creature0 with movement_target := some (Target.Food 7) } := by
  have h := C5_dangling_target world0 7
    { creature0 with movement_target := some (Target.Food 7) } (Target.Food 7) ⟨1, 2⟩
  exact ⟨h.1 rfl, h.2.1 rfl, h.2.2.1, h.2.2.2 rfl (h.1 rfl)⟩

/-! ### C6: hunger update -/

/-- C6: the hunger update subtracts exactly `0.01 + hunger_rate * |v|²`
then clamps to `[0,100]`; a stationary creature with `0.01 ≤ hunger ≤ 100`
loses exactly `0.01`; and the updated hunger is never negative. -/
theorem C6_hunger_update (c : Creature) :
    (update_hunger c).hunger
        = clampR (c.hunger - (0.01 + c.hunger_rate * c.square_speed)) 0 100
    ∧ (c.velocity = Vec2.zero → 0.01 ≤ c.hunger → c.hunger ≤ 100 →
        (update_hunger c).hunger = c.hunger - 0.01)
    ∧ 0 ≤ (update_hunger c).hunger := by
  refine ⟨rfl, fun hv hlo hhi => ?_, ?_⟩
  · have hs : c.square_speed = 0 := by
      simp [Creature.square_speed, hv, Vec2.zero, Vec2.length_squared]
    unfold update_hunger
    rw [hs]
    simp only [clampR]
    rw [if_neg (by linarith), if_neg (by linarith)]
    ring_nf
  · unfold update_hunger clampR
    dsimp only
    split_ifs with h1 h2
    · exact le_refl 0
    · norm_num
    · exact le_of_not_lt h1

/-- Witness for C6: a resting creature at hunger 100 drops to exactly
99.99, which is non-negative. -/
theorem C6_hunger_update_witness :
    (update_hunger creature0).hunger = creature0.hunger - 0.01
    ∧ 0 ≤ (update_hunger creature0).hunger := by
  have h := C6_hunger_update creature0
  exact ⟨h.2.1 rfl (by norm_num [creature0]) (by norm_num [creature0]), h.2.2⟩

/-! ### C7: nearest-food selection -/

/-- Characterization helper for the `find_food` fold: the first entry
attaining the running minimum among entries closer than `d`. -/
def select_nearest (c : Creature) (d : ℝ) : List (ℕ × FoodSource) → Option (ℕ × FoodSource)
  | [] => none
  | p :: rest =>
    if c.distance_to_food p.2 < d then
      some ((select_nearest c (c.distance_to_food p.2) rest).getD p)
    else select_nearest c d rest

lemma find_food_aux_eq_select (c : Creature) :
    ∀ (l : List (ℕ × FoodSource)) (acc : Option (ℕ × FoodSource)) (d : ℝ),
      find_food_aux c l acc d = (select_nearest c d l).elim acc some := by
  intro l
  induction l with
  | nil => intro acc d; rfl
  | cons p rest ih =>
    intro acc d
    rcases p with ⟨i, f⟩
    rw [find_food_aux, select_nearest]
    dsimp only
    by_cases h : c.distance_to_food f < d
    · rw [if_pos h, if_pos h, ih]
      cases select_nearest c (c.distance_to_food f) rest with
      | none => rfl
      | some e => rfl
    · rw [if_neg h, if_neg h, ih]

lemma select_nearest_spec (c : Creature) :
    ∀ (l : List (ℕ × FoodSource)) (d : ℝ),
      (∀ e, select_nearest c d l = some e →
        c.distance_to_food e.2 < d
        ∧ (∀ q ∈ l, c.distance_to_food e.2 ≤ c.distance_to_food q.2)
        ∧ ∃ l₁ l₂, l = l₁ ++ e :: l₂
            ∧ ∀ q ∈ l₁, c.distance_to_food e.2 < c.distance_to_food q.2)
      ∧ (select_nearest c d l = none → ∀ q ∈ l, d ≤ c.distance_to_food q.2) := by
  intro l
  induction l with
  | nil =>
    intro d
    refine ⟨fun e he => by simp [select_nearest] at he, fun _ q hq => by simp at hq⟩
  | cons p rest ih =>
    intro d
    constructor
    · intro e he
      rw [select_nearest] at he
      by_cases h : c.distance_to_food p.2 < d
      · rw [if_pos h] at he
        simp only [Option.some.injEq] at he
        cases hsel : select_nearest c (c.distance_to_food p.2) rest with
        | none =>
          rw [hsel, Option.getD_none] at he
          subst he
          refine ⟨h, ?_, [], rest, rfl, fun q hq => by simp at hq⟩
          intro q hq
          rcases List.mem_cons.mp hq with rfl | hq
          · exact le_refl _
          · exact (ih (c.distance_to_food p.2)).2 hsel q hq
        | some e' =>
          rw [hsel, Option.getD_some] at he
          subst he
          obtain ⟨hlt, hmin, l₁, l₂, hdec, hfirst⟩ := (ih (c.distance_to_food p.2)).1 e' hsel
          refine ⟨lt_trans hlt h, ?_, p :: l₁, l₂, by rw [hdec, List.cons_append], ?_⟩
          · intro q hq
            rcases List.mem_cons.mp hq with rfl | hq
            · exact le_of_lt hlt
            · exact hmin q hq
          · intro q hq
            rcases List.mem_cons.mp hq with rfl | hq
            · exact hlt
            · exact hfirst q hq
      · rw [if_neg h] at he
        obtain ⟨hlt, hmin, l₁, l₂, hdec, hfirst⟩ := (ih d).1 e he
        have hpe : c.distance_to_food e.2 < c.distance_to_food p.2 :=
          lt_of_lt_of_le hlt (le_of_not_lt h)
        refine ⟨hlt, ?_, p :: l₁, l₂, by rw [hdec, List.cons_append], ?_⟩
        · intro q hq
          rcases List.mem_cons.mp hq with rfl | hq
          · exact le_of_lt hpe
          · exact hmin q hq
        · intro q hq
          rcases List.mem_cons.mp hq with rfl | hq
          · exact hpe
          · exact hfirst q hq
    · intro he q hq
      rw [select_nearest] at he
      by_cases h : c.distance_to_food p.2 < d
      · rw [if_pos h] at he
        exact absurd he (by simp)
      · rw [if_neg h] at he
        rcases List.mem_cons.mp hq with rfl | hq
        · exact le_of_not_lt h
        · exact (ih d).2 he q hq

/-- C7: with every registered food source strictly closer than the
initial best distance `f32::MAX`, `find_food` on an empty registry is a
no-op (no panic — the model is total), and on a non-empty registry it sets
`movement_target := Food(id)` for an entry of minimum distance, the first
such entry in iteration order (everything strictly before it in the
registry list is strictly farther), changing nothing else. -/
theorem C7_find_food (c : Creature) (w : World)
    (hmax : ∀ p ∈ w.food_sources, c.distance_to_food p.2 < f32MAX) :
    (w.food_sources = [] → find_food c w = c)
    ∧ (w.food_sources ≠ [] → ∃ e : ℕ × FoodSource, e ∈ w.food_sources
        ∧ find_food c w = { c with movement_target := some (Target.Food e.1) }
        ∧ (∀ q ∈ w.food_sources, c.distance_to_food e.2 ≤ c.distance_to_food q.2)
        ∧ ∃ l₁ l₂, w.food_sources = l₁ ++ e :: l₂
            ∧ ∀ q ∈ l₁, c.distance_to_food e.2 < c.distance_to_food q.2) := by
  constructor
  · intro h
    unfold find_food
    rw [h]
    rfl
  · intro h
    cases hsel : select_nearest c f32MAX w.food_sources with
    | none =>
      exfalso
      rcases List.exists_mem_of_ne_nil _ h with ⟨p, hp⟩
      exact absurd (hmax p hp)
        (not_lt.mpr ((select_nearest_spec c w.food_sources f32MAX).2 hsel p hp))
    | some e =>
      obtain ⟨hlt, hmin, l₁, l₂, hdec, hfirst⟩ :=
        (select_nearest_spec c w.food_sources f32MAX).1 e hsel
      refine ⟨e, by rw [hdec]; exact List.mem_append_right _ (List.mem_cons_self _ _),
        ?_, hmin, l₁, l₂, hdec, hfirst⟩
      unfold find_food
      rw [find_food_aux_eq_select, hsel]
      rcases e with ⟨i, f⟩
      rfl

/-- C7 witness fixture: three food sources at distances 10, 5, 20 from the
baseline creature (the spec's nearest-food test). -/
def wC7 : World :=
  ⟨3, [], [(0, ⟨⟨310, 200⟩, 100, 100⟩), (1, ⟨⟨305, 200⟩, 100, 100⟩),
           (2, ⟨⟨320, 200⟩, 100, 100⟩)], params0, bounds0⟩

/-- Witness for C7: on the three-food fixture the selection succeeds and
picks a minimum-distance entry, first under iteration order. -/
theorem C7_find_food_witness :
    ∃ e : ℕ × FoodSource, e ∈ wC7.food_sources
      ∧ find_food creature0 wC7 = { creature0 with movement_target := some (Target.Food e.1) }
      ∧ (∀ q ∈ wC7.food_sources,
          creature0.distance_to_food e.2 ≤ creature0.distance_to_food q.2)
      ∧ ∃ l₁ l₂, wC7.food_sources = l₁ ++ e :: l₂
          ∧ ∀ q ∈ l₁, creature0.distance_to_food e.2 < creature0.distance_to_food q.2 := by
  apply (C7_find_food creature0 wC7 ?_).2 (by simp [wC7])
  intro p hp
  have hpos : (0 : ℝ) < f32MAX := by norm_num [f32MAX]
  simp only [wC7, List.mem_cons, List.not_mem_nil, or_false] at hp
  rcases hp with rfl | rfl | rfl <;>
    · rw [Creature.distance_to_food, Vec2.distance, Vec2.length, Real.sqrt_lt' hpos]
      norm_num [creature0, Vec2.sub_def, Vec2.length_squared, f32MAX]

/-! ### C8: id allocation -/

/-- A single insertion: either a creature or a food source (both draw
from the same `next_id` counter). -/
def applyOp (w : World) (op : Creature ⊕ FoodSource) : World × ℕ :=
  match op with
  | Sum.inl c => w.add_creature c
  | Sum.inr f => w.add_food_source f

/-- Apply a sequence of insertions. -/
def applyOps (w : World) : List (Creature ⊕ FoodSource) → World
  | [] => w
  | op :: rest => applyOps (applyOp w op).1 rest

/-- The ids assigned by a sequence of insertions, in insertion order. -/
def assignedIds (w : World) : List (Creature ⊕ FoodSource) → List ℕ
  | [] => []
  | op :: rest => (applyOp w op).2 :: assignedIds (applyOp w op).1 rest

/-- All entity ids of a world, creatures first then food sources. -/
def keysOf (w : World) : List ℕ :=
  w.creatures.map Prod.fst ++ w.food_sources.map Prod.fst

lemma mapInsert_fresh {β : Type} :
    ∀ (l : List (ℕ × β)) (k : ℕ) (v : β), k ∉ l.map Prod.fst →
      mapInsert k v l = l ++ [(k, v)] := by
  intro l
  induction l with
  | nil => intro k v _; rfl
  | cons q t ih =>
    intro k v h
    rcases q with ⟨k', x⟩
    rw [List.map_cons] at h
    have hne : k' ≠ k := fun he => h (by rw [he]; exact List.mem_cons_self _ _)
    rw [mapInsert, if_neg hne, ih k v (fun hm => h (List.mem_cons_of_mem _ hm))]
    rfl

lemma assignedIds_eq (ops : List (Creature ⊕ FoodSource)) :
    ∀ (w : World), assignedIds w ops = List.range' w.next_id ops.length := by
  induction ops with
  | nil => intro w; rfl
  | cons op rest ih =>
    intro w
    have hid : (applyOp w op).2 = w.next_id := by cases op <;> rfl
    have hnext : (applyOp w op).1.next_id = w.next_id + 1 := by cases op <;> rfl
    rw [assignedIds, hid, ih, hnext, List.length_cons, List.range'_succ]

/-- Id-space well-formedness: all keys below the counter, no duplicates. -/
def wf (w : World) : Prop :=
  (∀ k ∈ keysOf w, k < w.next_id) ∧ (keysOf w).Nodup

lemma wf_applyOp (w : World) (op : Creature ⊕ FoodSource) (h : wf w) :
    wf (applyOp w op).1 ∧ w.next_id ∈ keysOf (applyOp w op).1 := by
  have hfreshc : w.next_id ∉ w.creatures.map Prod.fst := fun hm =>
    lt_irrefl _ (h.1 _ (List.mem_append_left _ hm))
  have hfreshf : w.next_id ∉ w.food_sources.map Prod.fst := fun hm =>
    lt_irrefl _ (h.1 _ (List.mem_append_right _ hm))
  have hfresh : w.next_id ∉ keysOf w := fun hm => lt_irrefl _ (h.1 _ hm)
  cases op with
  | inl c =>
    have hkeys : keysOf (applyOp w (Sum.inl c)).1
        = (w.creatures.map Prod.fst ++ [w.next_id]) ++ w.food_sources.map Prod.fst := by
      show keysOf (w.add_creature c).1 = _
      unfold keysOf World.add_creature
      dsimp only
      rw [mapInsert_fresh _ _ _ hfreshc, List.map_append]
      rfl
    refine ⟨⟨?_, ?_⟩, ?_⟩
    · intro k hk
      rw [hkeys, List.append_assoc] at hk
      rcases List.mem_append.mp hk with h1 | h1
      · have := h.1 k (List.mem_append_left _ h1)
        calc k < w.next_id := this
          _ < (applyOp w (Sum.inl c)).1.next_id := by
            show w.next_id < w.next_id + 1
            omega
      · rcases List.mem_append.mp h1 with h2 | h2
        · rw [List.mem_singleton] at h2
          subst h2
          show w.next_id < w.next_id + 1
          omega
        · have := h.1 k (List.mem_append_right _ h2)
          calc k < w.next_id := this
            _ < w.next_id + 1 := by omega
    · rw [hkeys, List.append_assoc, List.singleton_append]
      rw [List.nodup_middle]
      rw [List.nodup_cons]
      exact ⟨hfresh, h.2⟩
    · rw [hkeys, List.append_assoc]
      exact List.mem_append_right _ (List.mem_append_left _ (List.mem_singleton_self _))
  | inr f =>
    have hkeys : keysOf (applyOp w (Sum.inr f)).1
        = w.creatures.map Prod.fst ++ (w.food_sources.map Prod.fst ++ [w.next_id]) := by
      show keysOf (w.add_food_source f).1 = _
      unfold keysOf World.add_food_source
      dsimp only
      rw [mapInsert_fresh _ _ _ hfreshf, List.map_append]
      rfl
    refine ⟨⟨?_, ?_⟩, ?_⟩
    · intro k hk
      rw [hkeys] at hk
      rcases List.mem_append.mp hk with h1 | h1
      · have := h.1 k (List.mem_append_left _ h1)
        calc k < w.next_id := this
          _ < w.next_id + 1 := by omega
      · rcases List.mem_append.mp h1 with h2 | h2
        · have := h.1 k (List.mem_append_right _ h2)
          calc k < w.next_id := this
            _ < w.next_id + 1 := by omega
        · rw [List.mem_singleton] at h2
          subst h2
          show w.next_id < w.next_id + 1
          omega
    · rw [hkeys, ← List.append_assoc]
      have : (w.creatures.map Prod.fst ++ w.food_sources.map Prod.fst) ++ [w.next_id]
          = (w.creatures.map Prod.fst ++ w.food_sources.map Prod.fst) ++ w.next_id :: [] := rfl
      rw [this, List.nodup_middle]
      rw [List.nodup_cons]
      rw [List.append_nil]
      exact ⟨hfresh, h.2⟩
    · rw [hkeys]
      exact List.mem_append_right _ (List.mem_append_right _ (List.mem_singleton_self _))

lemma wf_applyOps (ops : List (Creature ⊕ FoodSource)) :
    ∀ (w : World), wf w → wf (applyOps w ops) := by
  induction ops with
  | nil => intro w h; exact h
  | cons op rest ih =>
    intro w h
    rw [applyOps]
    exact ih _ (wf_applyOp w op h).1

lemma new_creatures_fold (cs : List Creature) :
    ∀ (w : World), (∀ k ∈ w.creatures.map Prod.fst, k < w.next_id) →
      (cs.foldl (fun w c => (w.add_creature c).1) w).creatures.map Prod.fst
          = w.creatures.map Prod.fst ++ List.range' w.next_id cs.length
      ∧ (cs.foldl (fun w c => (w.add_creature c).1) w).next_id = w.next_id + cs.length
      ∧ (cs.foldl (fun w c => (w.add_creature c).1) w).food_sources = w.food_sources := by
  induction cs with
  | nil => intro w _; exact ⟨by simp, by simp, rfl⟩
  | cons c cs ih =>
    intro w hw
    have hfresh : w.next_id ∉ w.creatures.map Prod.fst := fun hm => lt_irrefl _ (hw _ hm)
    have hkeys : (w.add_creature c).1.creatures.map Prod.fst
        = w.creatures.map Prod.fst ++ [w.next_id] := by
      unfold World.add_creature
      dsimp only
      rw [mapInsert_fresh _ _ _ hfresh, List.map_append]
      rfl
    have hnext : (w.add_creature c).1.next_id = w.next_id + 1 := rfl
    have hfood : (w.add_creature c).1.food_sources = w.food_sources := rfl
    have hw1 : ∀ k ∈ (w.add_creature c).1.creatures.map Prod.fst,
        k < (w.add_creature c).1.next_id := by
      intro k hk
      rw [hkeys] at hk
      rw [hnext]
      rcases List.mem_append.mp hk with h1 | h1
      · have := hw k h1; omega
      · rw [List.mem_singleton] at h1; omega
    obtain ⟨h1, h2, h3⟩ := ih ((w.add_creature c).1) hw1
    refine ⟨?_, ?_, by rw [List.foldl_cons, h3, hfood]⟩
    · rw [List.foldl_cons, h1, hkeys, hnext, List.append_assoc]
      rw [show [w.next_id] ++ List.range' (w.next_id + 1) cs.length
          = List.range' w.next_id (cs.length + 1) from (List.range'_succ _ _ _).symm]
      rw [List.length_cons]
    · rw [List.foldl_cons, h2, hnext, List.length_cons]
      omega

lemma new_food_fold (fs : List FoodSource) :
    ∀ (w : World), (∀ k ∈ w.food_sources.map Prod.fst, k < w.next_id) →
      (fs.foldl (fun w f => (w.add_food_source f).1) w).food_sources.map Prod.fst
          = w.food_sources.map Prod.fst ++ List.range' w.next_id fs.length
      ∧ (fs.foldl (fun w f => (w.add_food_source f).1) w).next_id = w.next_id + fs.length
      ∧ (fs.foldl (fun w f => (w.add_food_source f).1) w).creatures = w.creatures := by
  induction fs with
  | nil => intro w _; exact ⟨by simp, by simp, rfl⟩
  | cons f fs ih =>
    intro w hw
    have hfresh : w.next_id ∉ w.food_sources.map Prod.fst := fun hm => lt_irrefl _ (hw _ hm)
    have hkeys : (w.add_food_source f).1.food_sources.map Prod.fst
        = w.food_sources.map Prod.fst ++ [w.next_id] := by
      unfold World.add_food_source
      dsimp only
      rw [mapInsert_fresh _ _ _ hfresh, List.map_append]
      rfl
    have hnext : (w.add_food_source f).1.next_id = w.next_id + 1 := rfl
    have hcreat : (w.add_food_source f).1.creatures = w.creatures := rfl
    have hw1 : ∀ k ∈ (w.add_food_source f).1.food_sources.map Prod.fst,
        k < (w.add_food_source f).1.next_id := by
      intro k hk
      rw [hkeys] at hk
      rw [hnext]
      rcases List.mem_append.mp hk with h1 | h1
      · have := hw k h1; omega
      · rw [List.mem_singleton] at h1; omega
    obtain ⟨h1, h2, h3⟩ := ih ((w.add_food_source f).1) hw1
    refine ⟨?_, ?_, by rw [List.foldl_cons, h3, hcreat]⟩
    · rw [List.foldl_cons, h1, hkeys, hnext, List.append_assoc]
      rw [show [w.next_id] ++ List.range' (w.next_id + 1) fs.length
          = List.range' w.next_id (fs.length + 1) from (List.range'_succ _ _ _).symm]
      rw [List.length_cons]
    · rw [List.foldl_cons, h2, hnext, List.length_cons]
      omega

/-- C8: `World::new` assigns ids in list order — creatures get
`0 .. cs.length`, food sources then get the next `fs.length` ids — and
ends with `next_id = cs.length + fs.length`; any further insertion
sequence (creatures and food sources interleaved arbitrarily) is assigned
the consecutive ids starting at `next_id` (hence strictly increasing in
insertion order and fresh), and the resulting key set — creatures and food
sources together — never holds a duplicate. -/
theorem C8_id_allocation (cs : List Creature) (fs : List FoodSource)
    (ps : Params) (bs : Bounds) (ops : List (Creature ⊕ FoodSource)) :
    (World.new cs fs ps bs).creatures.map Prod.fst = List.range cs.length
    ∧ (World.new cs fs ps bs).food_sources.map Prod.fst
        = List.range' cs.length fs.length
    ∧ (World.new cs fs ps bs).next_id = cs.length + fs.length
    ∧ assignedIds (World.new cs fs ps bs) ops
        = List.range' (cs.length + fs.length) ops.length
    ∧ (keysOf (applyOps (World.new cs fs ps bs) ops)).Nodup := by
  have w0def : (⟨0, [], [], ps, bs⟩ : World).creatures.map Prod.fst = [] := rfl
  obtain ⟨hc1, hc2, hc3⟩ := new_creatures_fold cs (⟨0, [], [], ps, bs⟩ : World)
    (by intro k hk; simp at hk)
  set w1 := cs.foldl (fun w c => (w.add_creature c).1) (⟨0, [], [], ps, bs⟩ : World) with hw1
  obtain ⟨hf1, hf2, hf3⟩ := new_food_fold fs w1
    (by intro k hk; rw [hc3] at hk; simp at hk)
  have hnew : World.new cs fs ps bs = fs.foldl (fun w f => (w.add_food_source f).1) w1 := rfl
  have e1 : (World.new cs fs ps bs).creatures.map Prod.fst = List.range cs.length := by
    rw [hnew, hf3, hc1]
    simp [List.range_eq_range']
  have e2 : (World.new cs fs ps bs).food_sources.map Prod.fst
      = List.range' cs.length fs.length := by
    rw [hnew, hf1, hc3, hc2]
    simp
  have e3 : (World.new cs fs ps bs).next_id = cs.length + fs.length := by
    rw [hnew, hf2, hc2]
    show 0 + cs.length + fs.length = cs.length + fs.length
    omega
  have hwf : wf (World.new cs fs ps bs) := by
    constructor
    · intro k hk
      rw [keysOf, e1, e2] at hk
      rw [e3]
      rcases List.mem_append.mp hk with h1 | h1
      · rw [List.range_eq_range'] at h1
        rcases List.mem_range'.mp h1 with ⟨i, hi, he⟩
        omega
      · rcases List.mem_range'.mp h1 with ⟨i, hi, he⟩
        omega
    · rw [keysOf, e1, e2, List.range_eq_range']
      rw [List.nodup_append]
      refine ⟨List.nodup_range' _ _, List.nodup_range' _ _, ?_⟩
      intro a ha hb
      rcases List.mem_range'.mp ha with ⟨i, hi, he⟩
      rcases List.mem_range'.mp hb with ⟨j, hj, he2⟩
      omega
  refine ⟨e1, e2, e3, ?_, (wf_applyOps ops _ hwf).2⟩
  rw [assignedIds_eq, e3]

/-! ### C10: a dangling target is never cleared while content -/

/-- Iterated per-creature ticks against a sequence of worlds and RNGs
(worlds may evolve between ticks; only this creature's state is tracked). -/
def iter_tick (ws : ℕ → World) (rs : ℕ → Rng) (c : Creature) : ℕ → Creature
  | 0 => c
  | n + 1 => (creature_tick (rs n) (iter_tick ws rs c n) (ws n)).1

/-- One tick of a content creature with an unresolvable target: behavior
selection is a no-op (no wander target drawn, RNG untouched), the steering
step is the identity, and the dangling target survives the tick. -/
lemma creature_tick_dangling (rng : Rng) (c : Creature) (w : World) (tgt : Target)
    (htgt : c.movement_target = some tgt)
    (habs : tgt.position w = none)
    (hcontent : ¬ (update_hunger c).is_hungry) :
    behavior_stage rng (update_hunger c) w = (update_hunger c, rng)
    ∧ (update_hunger c).move_to_target w = update_hunger c
    ∧ (creature_tick rng c w).1.movement_target = some tgt := by
  have h1 : (update_hunger c).movement_target = some tgt := htgt
  have hb : behavior_stage rng (update_hunger c) w = (update_hunger c, rng) := by
    unfold behavior_stage
    rw [if_neg hcontent]
    unfold find_random_walk_target
    rw [if_pos (by rw [h1]; rfl)]
  have hm : (update_hunger c).move_to_target w = update_hunger c := by
    unfold Creature.move_to_target
    rw [h1]
    simp only [habs]
  refine ⟨hb, hm, ?_⟩
  have htick : (creature_tick rng c w).1 = (apply_bc (update_hunger c) w).update_facing := by
    unfold creature_tick
    dsimp only
    rw [hb]
    dsimp only
    rw [hm]
  rw [htick]
  exact h1

/-- C10: for a creature holding a dangling `Food`/`Creature` reference, as
long as the reference stays unresolvable in each tick's world and the
creature stays content (post-hunger-decay hunger above its threshold), the
dangling target persists tick after tick, no wander target is ever
selected (behavior stage is the identity and consumes no randomness), and
the steering step never fires (it is the identity on the creature). -/
theorem C10_dangling_persistence (ws : ℕ → World) (rs : ℕ → Rng) (c : Creature)
    (tgt : Target) (n : ℕ)
    (htgt : c.movement_target = some tgt)
    (habs : ∀ k < n, tgt.position (ws k) = none)
    (hcontent : ∀ k < n, ¬ (update_hunger (iter_tick ws rs c k)).is_hungry) :
    (iter_tick ws rs c n).movement_target = some tgt
    ∧ (∀ k < n,
        behavior_stage (rs k) (update_hunger (iter_tick ws rs c k)) (ws k)
          = (update_hunger (iter_tick ws rs c k), rs k)
        ∧ (update_hunger (iter_tick ws rs c k)).move_to_target (ws k)
          = update_hunger (iter_tick ws rs c k)) := by
  induction n with
  | zero => exact ⟨htgt, fun k hk => absurd hk (by omega)⟩
  | succ m ih =>
    obtain ⟨htm, hper⟩ := ih (fun k hk => habs k (by omega))
      (fun k hk => hcontent k (by omega))
    have hstep := creature_tick_dangling (rs m) (iter_tick ws rs c m) (ws m) tgt htm
      (habs m (by omega)) (hcontent m (by omega))
    refine ⟨?_, ?_⟩
    · rw [iter_tick]
      exact hstep.2.2
    · intro k hk
      by_cases hkm : k < m
      · exact hper k hkm
      · have : k = m := by omega
        subst this
        exact ⟨hstep.1, hstep.2.1⟩

/-- Fixture creature for the C10 witness: content, at the arena center,
holding a dangling `Food 5` reference. -/
def cC10 : Creature := { creature0 with movement_target := some (Target.Food 5) }

/-- Witness for C10 at one tick in the empty world: the dangling target
survives and neither the behavior stage nor the steering step does
anything. -/
theorem C10_dangling_persistence_witness :
    (iter_tick (fun _ => world0) (fun _ => rng0) cC10 1).movement_target
        = some (Target.Food 5)
    ∧ (∀ k < 1,
        behavior_stage ((fun _ => rng0) k)
            (update_hunger (iter_tick (fun _ => world0) (fun _ => rng0) cC10 k))
            ((fun _ => world0) k)
          = (update_hunger (iter_tick (fun _ => world0) (fun _ => rng0) cC10 k), (fun _ => rng0) k)
        ∧ (update_hunger (iter_tick (fun _ => world0) (fun _ => rng0) cC10 k)).move_to_target
            ((fun _ => world0) k)
          = update_hunger (iter_tick (fun _ => world0) (fun _ => rng0) cC10 k)) := by
  apply C10_dangling_persistence (fun _ => world0) (fun _ => rng0) cC10 (Target.Food 5) 1 rfl
  · intro k _
    rfl
  · intro k hk
    have : k = 0 := by omega
    subst this
    show ¬ (update_hunger cC10).is_hungry
    norm_num [update_hunger, cC10, creature0, clampR, Creature.square_speed,
      Vec2.length_squared, Creature.is_hungry]

/-! ### C9: boundary repulsion sign -/

/-- C9: with padding 20 (and an arena at least one padding wide per axis),
the boundary force is strictly positive at the minimum bound, strictly
negative at the maximum bound, and zero farther than padding from both
bounds — independently on each axis. -/
theorem C9_bc_force_sign (c : Creature) (w : World)
    (hp : w.params.padding = 20)
    (hwx : w.bounds.x_min + 20 ≤ w.bounds.x_max)
    (hwy : w.bounds.y_min + 20 ≤ w.bounds.y_max) :
    (c.position.x = w.bounds.x_min → 0 < (bc_force c w).x)
    ∧ (c.position.x = w.bounds.x_max → (bc_force c w).x < 0)
    ∧ (w.bounds.x_min + 20 < c.position.x → c.position.x < w.bounds.x_max - 20 →
        (bc_force c w).x = 0)
    ∧ (c.position.y = w.bounds.y_min → 0 < (bc_force c w).y)
    ∧ (c.position.y = w.bounds.y_max → (bc_force c w).y < 0)
    ∧ (w.bounds.y_min + 20 < c.position.y → c.position.y < w.bounds.y_max - 20 →
        (bc_force c w).y = 0) := by
  unfold bc_force
  dsimp only
  rw [hp]
  refine ⟨fun hx => ?_, fun hx => ?_, fun hx1 hx2 => ?_,
    fun hy => ?_, fun hy => ?_, fun hy1 hy2 => ?_⟩
  · rw [if_pos (by rw [hx]; linarith)]
    rw [hx, sub_self]
    norm_num
  · rw [if_neg (by rw [hx]; linarith), if_pos (by rw [hx]; linarith)]
    rw [hx, sub_self]
    norm_num
  · rw [if_neg (by linarith), if_neg (by linarith)]
  · rw [if_pos (by rw [hy]; linarith)]
    rw [hy, sub_self]
    norm_num
  · rw [if_neg (by rw [hy]; linarith), if_pos (by rw [hy]; linarith)]
    rw [hy, sub_self]
    norm_num
  · rw [if_neg (by linarith), if_neg (by linarith)]

/-- Witness for C9: in the default arena, a creature at `x = x_min`
receives strictly positive x-force, one at `x = x_max` strictly negative
x-force, and the center creature zero x-force. -/
theorem C9_bc_force_sign_witness :
    0 < (bc_force { creature0 with position := ⟨0, 200⟩ } world0).x
    ∧ (bc_force { creature0 with position := ⟨600, 200⟩ } world0).x < 0
    ∧ (bc_force creature0 world0).x = 0 := by
  refine ⟨(C9_bc_force_sign _ world0 (by norm_num [world0, params0])
      (by norm_num [world0, bounds0]) (by norm_num [world0, bounds0])).1 (by
        norm_num [world0, bounds0]),
    (C9_bc_force_sign _ world0 (by norm_num [world0, params0])
      (by norm_num [world0, bounds0]) (by norm_num [world0, bounds0])).2.1 (by
        norm_num [world0, bounds0]),
    (C9_bc_force_sign creature0 world0 (by norm_num [world0, params0])
      (by norm_num [world0, bounds0]) (by norm_num [world0, bounds0])).2.2.1 (by
        norm_num [world0, bounds0, creature0]) (by norm_num [world0, bounds0, creature0])⟩

end

end Evosim
